import Mathlib

/-!
Verification development for the cagent multi-agent conversation runtime.

The development shallowly embeds:
 - the session context engine's message data model and view construction
   (the implementation lives outside the provided sources; only its tests are
   available, so the view construction is modelled from the specification and
   anchored to the assertions of the session tests);
 - the shell tool execution supervisor from pkg/oci/session.go (RunShell,
   GetLogs, Stop) as pure state-passing functions over an explicit table of
   background commands and a live-process registry;
 - the follow-up suggestions generator from pkg/runtime/suggestions_generator.go;
 - the session import handler from the HTTP server.
-/

namespace Cagent

/-- Message roles, from the chat package (system, user, assistant, tool). -/
inductive Role
  | system
  | user
  | assistant
  | tool
deriving DecidableEq, Repr

/-- A structured function call inside a tool call (tools.FunctionCall). -/
structure FunctionCall where
  name : String
  arguments : String
deriving DecidableEq, Repr

/-- A structured tool call attached to an assistant message (tools.ToolCall). -/
structure ToolCall where
  id : String
  type : String
  function : FunctionCall
deriving DecidableEq, Repr

/-- A chat message (chat.Message), restricted to the fields the claims are
about: role, text content, structured tool calls, tool-call id for tool-role
messages, and the cache-checkpoint flag. -/
structure Message where
  role : Role
  content : String
  toolCalls : List ToolCall := []
  toolCallID : String := ""
  cacheControl : Bool := false
deriving DecidableEq, Repr

/-- A conversation item (session.Item): either a message tagged with its
authoring agent's name, or a summary marker carrying only summary text. -/
inductive Item
  | msg (agentName : String) (message : Message)
  | summary (text : String)
deriving DecidableEq, Repr

/-- An agent record, restricted to the fields the context engine reads:
name, instructions, toolset instruction blocks, and whether a date message
is added to the view. -/
structure Agent where
  name : String
  instructions : String
  toolsetInstructions : List String
  addDate : Bool
deriving DecidableEq, Repr

/-- Build a plain system message. -/
def sysMsg (content : String) : Message :=
  { role := Role.system, content := content }

/-- Modelled from the spec: the narrative lines produced for a foreign
assistant message. The `GetMessages` implementation is absent from the
provided sources (only its tests are); per the spec, foreign assistant
content becomes a "For context: [name] said: ..." line and each foreign tool
call becomes a "[name] called tool ... with parameters: ..." line, matching
the containment assertions of TestGetMessages_OtherAgentToolCallsConvertedToNarrative. -/
def narrativeLines (owner : String) (m : Message) : List String :=
  (if m.content = "" then [] else ["For context: [" ++ owner ++ "] said: " ++ m.content]) ++
    m.toolCalls.map (fun tc =>
      "[" ++ owner ++ "] called tool `" ++ tc.function.name ++ "` with parameters: " ++ tc.function.arguments)

/-- Join narrative lines into one message body. -/
def joinLines : List String → String
  | [] => ""
  | [l] => l
  | l :: ls => l ++ "\n" ++ joinLines ls

/-- Modelled from the spec: rewriting of an item authored by another agent
into role=user narrative text, stripped of structured tool-call and
tool-call-id fields. A foreign tool-result with empty content is dropped; a
foreign assistant item with only tool calls still yields a narrative line. -/
def convertForeign (owner : String) (m : Message) : Option Message :=
  match m.role with
  | Role.assistant =>
    match narrativeLines owner m with
    | [] => none
    | ls => some { role := Role.user, content := joinLines ls }
  | Role.tool =>
    if m.content = "" then none
    else some { role := Role.user, content := "For context: Tool returned result: " ++ m.content }
  | _ => some { m with role := Role.user, toolCalls := [], toolCallID := "" }

/-- Modelled from the spec: per-item view transformation for `agentName`'s
view. Items authored by the agent itself pass unchanged, including structured
tool calls (TestGetMessages_SameAgentToolCallsUnchanged); items authored by
any other agent are rewritten by `convertForeign`. -/
def convertItem (agentName : String) : Item → Option Message
  | Item.msg owner m => if owner = agentName then some m else convertForeign owner m
  | Item.summary _ => none

/-- Locate the most recent summary marker: returns its text and the items
stored strictly after it, or `none` when the session has no marker. -/
def splitAtLastSummary : List Item → Option (String × List Item)
  | [] => none
  | i :: rest =>
    match splitAtLastSummary rest, i with
    | some p, _ => some p
    | none, Item.summary t => some (t, rest)
    | none, Item.msg _ _ => none

/-- The items the view construction walks: everything after the most recent
summary marker, or the full history when no marker exists. -/
def walkedItems (items : List Item) : List Item :=
  match splitAtLastSummary items with
  | some p => p.2
  | none => items

/-- The summary zone of a view: one "Session Summary: ..." system message
when a marker exists, else nothing. -/
def summaryZone (items : List Item) : List Message :=
  match splitAtLastSummary items with
  | some p => [sysMsg ("Session Summary: " ++ p.1)]
  | none => []

/-- The agent-invariant zone: the agent's instructions followed by its
toolset instruction blocks, all as system messages. -/
def invariantZone (a : Agent) : List Message :=
  sysMsg a.instructions :: a.toolsetInstructions.map sysMsg

/-- The context-specific zone: a date system message when the agent is
configured with date addition, else empty. -/
def contextZone (a : Agent) (date : String) : List Message :=
  if a.addDate then [sysMsg ("Date: " ++ date)] else []

/-- Set the cache-checkpoint flag on the last message of a zone. -/
def markLast : List Message → List Message
  | [] => []
  | [m] => [{ m with cacheControl := true }]
  | m :: rest => m :: markLast rest

/-- Modelled from the spec: `GetMessages` view construction. The
implementation is absent from the provided sources; the zone order
(instructions, toolset instructions, date, summary, walked conversation) and
the foreign-item rewriting follow the spec, while checkpoint placement
follows the session tests, which are the authoritative code present:
TestGetMessages_Instructions, TestGetMessages_CacheControl and
TestGetMessages_CacheControlWithSummary assert that the last message of the
invariant zone and the last message of the context-specific zone carry the
flag and that the view of an agent with all three zones present carries
exactly two flags — the summary message is not flagged. -/
def getMessages (a : Agent) (date : String) (items : List Item) : List Message :=
  markLast (invariantZone a) ++ markLast (contextZone a date) ++ summaryZone items ++
    (walkedItems items).filterMap (convertItem a.name)

/-- True when every tool-role message in the list is preceded by an
assistant-role message whose structured tool calls contain its tool-call id,
given the ids `seen` so far (the consistency check of
TestTrimMessagesWithToolCalls). -/
def orphanFreeAux : List String → List Message → Bool
  | _, [] => true
  | seen, m :: rest =>
    (m.role != Role.tool || seen.contains m.toolCallID) &&
      orphanFreeAux
        (if m.role == Role.assistant then seen ++ m.toolCalls.map (fun tc => tc.id) else seen)
        rest

/-- True when every tool-role message in the list has its owning assistant
message earlier in the same list. -/
def orphanFree (ms : List Message) : Bool :=
  orphanFreeAux [] ms

/-- Modelled from the spec: the leftward window extension of `trimMessages`.
Starting from `start` (the index of the first kept message), the window is
extended leftward until every tool-call id referenced within it is backed by
its assistant message; if no such window exists the full list is returned. -/
def trimFrom (messages : List Message) : Nat → List Message
  | 0 => messages
  | s + 1 =>
    if orphanFree (messages.drop (s + 1)) then messages.drop (s + 1)
    else trimFrom messages s

/-- Modelled from the spec: `trimMessages(items, maxItems)` returns the most
recent `maxItems` items, except that a window that would orphan a tool-role
item is extended leftward (`trimFrom`). The implementation is absent from the
provided sources; only TestTrimMessagesWithToolCalls exercises it. -/
def trimMessages (messages : List Message) (maxItems : Nat) : List Message :=
  if messages.length ≤ maxItems then messages
  else trimFrom messages (messages.length - maxItems)

/-- A tool call result (tools.ToolCallResult), reduced to its output text. -/
structure ToolCallResult where
  output : String
deriving DecidableEq, Repr

/-- One entry of the background-command table (builtin.backgroundCommand):
the two output buffers and the single-shot completion signal. `done = none`
models an empty completion channel (process still running as far as the
supervisor can observe); `done = some e` models a pending completion value,
where `e = none` is a clean exit and `e = some err` a failed one. -/
structure BackgroundCommand where
  outBuf : String
  errBuf : String
  done : Option (Option String)
deriving DecidableEq, Repr

/-- The background-command table, keyed by process id. -/
abbrev BgTable := List (Nat × BackgroundCommand)

/-- Map lookup on the background-command table. -/
def lookupBg (t : BgTable) (pid : Nat) : Option BackgroundCommand :=
  match t.find? (fun e => e.1 == pid) with
  | some e => some e.2
  | none => none

/-- Map deletion on the background-command table. -/
def eraseBg (t : BgTable) (pid : Nat) : BgTable :=
  t.filter (fun e => e.1 != pid)

/-- Map insertion (overwrite) on the background-command table. -/
def insertBg (t : BgTable) (pid : Nat) (bg : BackgroundCommand) : BgTable :=
  (pid, bg) :: eraseBg t pid

/-- The shell handler's mutable state (builtin.shellHandler): the
live-process registry and the background-command table. -/
structure ShellState where
  processes : List Nat
  backgroundCommands : BgTable
deriving DecidableEq, Repr

/-- Arguments of the shell tool (builtin.RunShellArgs). -/
structure RunShellArgs where
  cmd : String
  cwd : String
  background : Bool
deriving DecidableEq, Repr

/-- The quick-completion timeout of RunShell, in seconds
(quickCommandTimeout = 10 * time.Second in pkg/oci/session.go; the 30-second
value in pkg/tools/builtin/shell.go belongs to the superseded push-callback
variant). -/
def quickCommandTimeout : Nat := 10

/-- Whether the launched process (and its output readers) completed within
the quick-completion timeout: `exitSeconds` is the completion time when the
process terminated, `none` while it is still running. -/
def finishedWithinTimeout (exitSeconds : Option Nat) : Bool :=
  match exitSeconds with
  | some s => s < quickCommandTimeout
  | none => false

/-- The outcome of one OS-level shell execution, abstracting the effects the
RunShell control flow branches on: pipe-setup errors, the spawn error, the
process id, the completion time and exit error, the buffer contents at the
moment RunShell returns, and the state of the completion channel at
registration time. -/
structure ExecEnv where
  stdoutPipeErr : Option String
  stderrPipeErr : Option String
  startErr : Option String
  pid : Nat
  exitSeconds : Option Nat
  exitErr : Option String
  stdoutAcc : String
  stderrAcc : String
  doneAtReg : Option (Option String)
deriving DecidableEq, Repr

/-- The result text of the two backgrounding branches of RunShell. -/
def bgResultMessage (pid : Nat) : String :=
  "Command is running in background (PID: " ++ toString pid ++
    "). Use get_logs tool with this PID to retrieve output."

/-- RunShell from pkg/oci/session.go as a state transformer.
`parsedArgs = none` models a tool-call argument string that fails to
unmarshal (hard error, no result); every other failure is encoded as
descriptive text inside an ok result. On both backgrounding paths (explicit
`background` flag, or quick-completion timeout exceeded) the command is
registered in the background-command table keyed by pid. The live-process
registry is unchanged at return on every path: the process is appended on
start, and the deferred cleanup that runs when the handler returns removes
the entry with the same pid again. -/
def runShell (parsedArgs : Option RunShellArgs) (env : ExecEnv) (st : ShellState) :
    Except String (ToolCallResult × ShellState) :=
  match parsedArgs with
  | none => Except.error "invalid arguments"
  | some args =>
    match env.stdoutPipeErr with
    | some e => Except.ok (⟨"Error creating stdout pipe: " ++ e⟩, st)
    | none =>
      match env.stderrPipeErr with
      | some e => Except.ok (⟨"Error creating stderr pipe: " ++ e⟩, st)
      | none =>
        match env.startErr with
        | some e => Except.ok (⟨"Error starting command: " ++ e⟩, st)
        | none =>
          if args.background then
            Except.ok (⟨bgResultMessage env.pid⟩,
              { st with backgroundCommands :=
                  (insertBg st.backgroundCommands env.pid ⟨env.stdoutAcc, env.stderrAcc, env.doneAtReg⟩) })
          else if finishedWithinTimeout env.exitSeconds then
            match env.exitErr with
            | some e =>
              Except.ok (⟨"Error executing command: " ++ e ++ "\nOutput: " ++
                (env.stdoutAcc ++ env.stderrAcc)⟩, st)
            | none =>
              Except.ok (⟨"Output: " ++ (env.stdoutAcc ++ env.stderrAcc)⟩, st)
          else
            Except.ok (⟨bgResultMessage env.pid⟩,
              { st with backgroundCommands :=
                  (insertBg st.backgroundCommands env.pid ⟨env.stdoutAcc, env.stderrAcc, env.doneAtReg⟩) })

/-- GetLogs from pkg/oci/session.go as a state transformer: not-found when
the pid has no table entry; drain, report status and delete the entry when
the completion signal is pending; otherwise report the currently accumulated
output and leave the entry in place. -/
def getLogs (t : BgTable) (pid : Nat) : ToolCallResult × BgTable :=
  match lookupBg t pid with
  | none => (⟨"No background command found with PID: " ++ toString pid⟩, t)
  | some bg =>
    match bg.done with
    | some e =>
      let output := bg.outBuf ++ bg.errBuf
      match e with
      | some err =>
        (⟨"Command (PID: " ++ toString pid ++ ") completed with error: " ++ err ++
          "\n\nOutput:\n" ++ output⟩, eraseBg t pid)
      | none =>
        (⟨"Command (PID: " ++ toString pid ++ ") completed successfully.\n\nOutput:\n" ++
          output⟩, eraseBg t pid)
    | none =>
      let output := bg.outBuf ++ bg.errBuf
      if output = "" then
        (⟨"Command (PID: " ++ toString pid ++ ") is still running. No output yet."⟩, t)
      else
        (⟨"Command (PID: " ++ toString pid ++ ") is still running.\n\nCurrent output:\n" ++
          output⟩, t)

/-- Stop from pkg/oci/session.go: signal the process group of every entry of
the live-process registry (returned as the list of pids whose groups receive
SIGTERM), then clear the registry. The background-command table is not
touched. -/
def stopSignals (st : ShellState) : List Nat × ShellState :=
  (st.processes, ⟨[], st.backgroundCommands⟩)

/-- Whether `needle` occurs as a contiguous subsequence of `hay`. -/
def hasSub (needle : List Char) : List Char → Bool
  | [] => needle.isEmpty
  | c :: rest => needle.isPrefixOf (c :: rest) || hasSub needle rest

/-- Skip JSON whitespace. -/
def skipWs : List Char → List Char
  | c :: cs => if c = ' ' ∨ c = '\n' ∨ c = '\t' ∨ c = '\r' then skipWs cs else c :: cs
  | [] => []

/-- Decoding of a single-character JSON escape. -/
def escapeChar (c : Char) : Option Char :=
  if c = '"' then some '"'
  else if c = '\\' then some '\\'
  else if c = '/' then some '/'
  else if c = 'b' then some (Char.ofNat 8)
  else if c = 'f' then some (Char.ofNat 12)
  else if c = 'n' then some '\n'
  else if c = 'r' then some '\r'
  else if c = 't' then some '\t'
  else none

/-- Value of one hexadecimal digit. -/
def hexVal (c : Char) : Option Nat :=
  if '0' ≤ c ∧ c ≤ '9' then some (c.toNat - '0'.toNat)
  else if 'a' ≤ c ∧ c ≤ 'f' then some (c.toNat - 'a'.toNat + 10)
  else if 'A' ≤ c ∧ c ≤ 'F' then some (c.toNat - 'A'.toNat + 10)
  else none

/-- Lex the body of a JSON string after its opening quote, with fuel:
returns the decoded characters and the input after the closing quote. -/
def lexStringAux : Nat → List Char → Option (List Char × List Char)
  | 0, _ => none
  | _ + 1, [] => none
  | fuel + 1, c :: cs =>
    if c = '"' then some ([], cs)
    else if c = '\\' then
      match cs with
      | [] => none
      | e :: cs2 =>
        if e = 'u' then
          match cs2 with
          | h1 :: h2 :: h3 :: h4 :: cs3 =>
            match hexVal h1, hexVal h2, hexVal h3, hexVal h4 with
            | some v1, some v2, some v3, some v4 =>
              match lexStringAux fuel cs3 with
              | some (s, r) => some (Char.ofNat (v1 * 4096 + v2 * 256 + v3 * 16 + v4) :: s, r)
              | none => none
            | _, _, _, _ => none
          | _ => none
        else
          match escapeChar e with
          | some ch =>
            match lexStringAux fuel cs2 with
            | some (s, r) => some (ch :: s, r)
            | none => none
          | none => none
    else
      match lexStringAux fuel cs with
      | some (s, r) => some (c :: s, r)
      | none => none

/-- Parse a non-empty comma-separated sequence of JSON strings followed by
the closing bracket, with fuel. -/
def parseElems : Nat → List Char → Option (List String × List Char)
  | 0, _ => none
  | fuel + 1, cs =>
    match skipWs cs with
    | '"' :: rest =>
      match lexStringAux (rest.length + 1) rest with
      | none => none
      | some (s, rest2) =>
        match skipWs rest2 with
        | ',' :: rest4 =>
          match parseElems fuel rest4 with
          | some (ss, r) => some (String.mk s :: ss, r)
          | none => none
        | ']' :: rest4 => some ([String.mk s], rest4)
        | _ => none
    | _ => none

/-- json.Unmarshal into a []string, shallowly embedded: accepts a JSON array
of strings (or null, which leaves the slice empty) with nothing but
whitespace around it, and fails on everything else. -/
def jsonUnmarshalStringList (s : String) : Option (List String) :=
  match skipWs s.toList with
  | '[' :: rest =>
    (match skipWs rest with
     | ']' :: r => if skipWs r = [] then some [] else none
     | _ =>
       match parseElems (rest.length + 1) rest with
       | some (ss, r) => if skipWs r = [] then some ss else none
       | none => none)
  | 'n' :: 'u' :: 'l' :: 'l' :: r => if skipWs r = [] then some [] else none
  | _ => none

/-- The markdown-tolerant extraction step of parseSuggestions: the substring
from the first opening bracket to the last closing bracket when the latter
comes later, else the whole reply. -/
def extractClean (response : String) : String :=
  let cs := response.toList
  match cs.findIdx? (fun c => c == '[') with
  | none => response
  | some i =>
    match cs.reverse.findIdx? (fun c => c == ']') with
    | none => response
    | some jr =>
      let j := cs.length - 1 - jr
      if i < j then String.mk ((cs.drop i).take (j - i + 1)) else response

/-- The validation loop of parseSuggestions: skip empty entries, append the
rest, and stop as soon as `maxCount` entries are collected (`n` is the
number collected so far). -/
def collectValid (maxCount : Nat) : List String → Nat → List String
  | [], _ => []
  | s :: rest, n =>
    if s = "" then collectValid maxCount rest n
    else if maxCount ≤ n + 1 then [s]
    else s :: collectValid maxCount rest (n + 1)

/-- parseSuggestions from pkg/runtime/suggestions_generator.go: extract the
bracketed substring, unmarshal it as a JSON string array, drop empty entries
and truncate to `maxCount`; any parse failure yields the empty list. -/
def parseSuggestions (response : String) (maxCount : Nat) : List String :=
  match jsonUnmarshalStringList (extractClean response) with
  | none => []
  | some suggestions => collectValid maxCount suggestions 0

/-- A runtime event, restricted to the follow-up-suggestions variant the
claims are about. -/
inductive Event
  | followUpSuggestions (suggestions : List String) (agentName : String)
deriving DecidableEq, Repr

/-- The emission step at the end of generate: emit one follow-up-suggestions
event tagged with the originating agent name when at least one suggestion
survives, else nothing. -/
def emitSuggestions (response : String) (maxCount : Nat) (agentName : String) : Option Event :=
  let suggestions := parseSuggestions response maxCount
  if suggestions.length > 0 then some (Event.followUpSuggestions suggestions agentName)
  else none

/-- A session record (session.Session), restricted to the fields
the importSession handler touches: id, creation time, title and items. -/
structure Session where
  id : String
  createdAt : Nat
  title : String
  items : List Item
deriving DecidableEq, Repr

/-- The exported-session artifact payload (api.ExportedSession); the session
pointer may be nil, modelled as an Option. -/
structure ExportedSession where
  version : String
  exportedAt : String
  sessionData : Option Session
deriving DecidableEq, Repr

/-- The import response (api.ImportSessionResponse). -/
structure ImportSessionResponse where
  id : String
  title : String
  message : String
deriving DecidableEq, Repr

/-- HTTP error classes of the server handlers. -/
inductive HTTPStatus
  | badRequest
  | internalServerError
deriving DecidableEq, Repr

/-- importSession from the HTTP server: after a successful artifact
extraction with non-nil session data, the stored session is the artifact's
session with a freshly generated id (`freshID`, modelling uuid.New) and the
the import time (`now`, modelling time.Now); nil session data is rejected as a
bad request and nothing is stored. The ok value carries the session handed
to the store together with the HTTP response. -/
def importSession (reference : String) (extractResult : Except String ExportedSession)
    (freshID : String) (now : Nat) :
    Except (HTTPStatus × String) (Session × ImportSessionResponse) :=
  if reference = "" then Except.error (HTTPStatus.badRequest, "reference is required")
  else
    match extractResult with
    | Except.error e =>
      Except.error (HTTPStatus.internalServerError, "failed to extract session from store: " ++ e)
    | Except.ok exported =>
      match exported.sessionData with
      | none => Except.error (HTTPStatus.badRequest, "invalid session data in artifact")
      | some s =>
        Except.ok ({ s with id := freshID, createdAt := now },
          ⟨freshID, s.title, "session imported successfully"⟩)

/-- Whether an item is a summary marker. -/
def isSummary : Item → Bool
  | Item.summary _ => true
  | _ => false

/-- The agent of TestGetMessages_CacheControlWithSummary: instructions, one
toolset instruction block, and date addition enabled. -/
def c8TestAgent : Agent :=
  ⟨"root", "instructions", ["Using the Todo Tools"], true⟩

/-- The six-message fixture of TestTrimMessagesWithToolCalls. -/
def trimTestMessages : List Message :=
  [⟨Role.user, "first message", [], "", false⟩,
   ⟨Role.assistant, "response with tool", [⟨"tool1", "", ⟨"", ""⟩⟩], "", false⟩,
   ⟨Role.tool, "tool result", [], "tool1", false⟩,
   ⟨Role.user, "second message", [], "", false⟩,
   ⟨Role.assistant, "another response", [⟨"tool2", "", ⟨"", ""⟩⟩], "", false⟩,
   ⟨Role.tool, "tool result 2", [], "tool2", false⟩]

/-- A model reply wrapping a JSON suggestions array in prose and markdown,
as in the spec scenario. -/
def suggestionsTestReply : String :=
  "Here are some ideas:\n```json\n[\"a\", \"b\", \"c\", \"d\"]\n```"

/-- A concrete exported session used to witness the import behaviour. -/
def importTestSession : Session :=
  ⟨"old-id", 5, "My title", [Item.msg "root" ⟨Role.user, "hello", [], "", false⟩]⟩

theorem getLogs_of_none (t : BgTable) (pid : Nat) (h : lookupBg t pid = none) :
    getLogs t pid = (⟨"No background command found with PID: " ++ toString pid⟩, t) := by
  simp [getLogs, h]

theorem lookupBg_erase (t : BgTable) (pid : Nat) : lookupBg (eraseBg t pid) pid = none := by
  have h : (eraseBg t pid).find? (fun e => e.1 == pid) = none := by
    apply List.find?_eq_none.mpr
    intro x hx
    have hmem := (List.mem_filter.mp hx).2
    simp only [bne_iff_ne, ne_eq] at hmem
    simp [hmem]
  simp [lookupBg, h]

theorem lookupBg_insert (t : BgTable) (pid : Nat) (bg : BackgroundCommand) :
    lookupBg (insertBg t pid bg) pid = some bg := by
  simp [lookupBg, insertBg, List.find?_cons]

/-- Claim C2: for every pid registered in the background-command table,
get_logs is repeatable while the process is still running (it returns the
currently accumulated output and leaves the table entry in place) and
exactly-once-terminal: the first call observing the pending completion
signal drains the final output, reports the exit status, and removes the
entry, so every later call for that pid reports that no background command
was found; the entry transitions from present to absent exactly once. -/
theorem getLogs_repeatable_exactly_once :
    ∀ (t : BgTable) (pid : Nat),
    (lookupBg t pid = none →
      getLogs t pid = (⟨"No background command found with PID: " ++ toString pid⟩, t)) ∧
    ∀ bg, lookupBg t pid = some bg →
      (bg.done = none →
        (getLogs t pid).2 = t ∧
        lookupBg (getLogs t pid).2 pid = some bg ∧
        (bg.outBuf ++ bg.errBuf = "" →
          (getLogs t pid).1.output =
            "Command (PID: " ++ toString pid ++ ") is still running. No output yet.") ∧
        (bg.outBuf ++ bg.errBuf ≠ "" →
          (getLogs t pid).1.output =
            "Command (PID: " ++ toString pid ++ ") is still running.\n\nCurrent output:\n" ++
              (bg.outBuf ++ bg.errBuf))) ∧
      (∀ e, bg.done = some e →
        (getLogs t pid).2 = eraseBg t pid ∧
        lookupBg (getLogs t pid).2 pid = none ∧
        getLogs (getLogs t pid).2 pid =
          (⟨"No background command found with PID: " ++ toString pid⟩, (getLogs t pid).2) ∧
        (∀ err, e = some err →
          (getLogs t pid).1.output =
            "Command (PID: " ++ toString pid ++ ") completed with error: " ++ err ++
              "\n\nOutput:\n" ++ (bg.outBuf ++ bg.errBuf)) ∧
        (e = none →
          (getLogs t pid).1.output =
            "Command (PID: " ++ toString pid ++ ") completed successfully.\n\nOutput:\n" ++
              (bg.outBuf ++ bg.errBuf))) := by
  intro t pid
  constructor
  · intro h
    simp [getLogs, h]
  · intro bg hbg
    constructor
    · intro hdone
      refine ⟨?_, ?_, ?_, ?_⟩
      · simp only [getLogs, hbg, hdone]
        split <;> rfl
      · simp only [getLogs, hbg, hdone]
        split <;> exact hbg
      · intro hout
        simp [getLogs, hbg, hdone, hout]
      · intro hout
        simp [getLogs, hbg, hdone, hout]
    · intro e hdone
      have habsent : lookupBg (getLogs t pid).2 pid = none := by
        cases e <;> simp [getLogs, hbg, hdone, lookupBg_erase]
      refine ⟨?_, habsent, ?_, ?_, ?_⟩
      · cases e <;> simp [getLogs, hbg, hdone]
      · exact getLogs_of_none _ _ habsent
      · intro err herr
        subst herr
        simp [getLogs, hbg, hdone]
      · intro herr
        subst herr
        simp [getLogs, hbg, hdone]

/-- Witness for C2 at a concrete completed entry: the completing call
removes the entry, and the repeat call reports not-found. -/
theorem getLogs_repeatable_exactly_once_witness :
    lookupBg (getLogs [(7, ⟨"o", "e", some none⟩)] 7).2 7 = none ∧
    (getLogs (getLogs [(7, ⟨"o", "e", some none⟩)] 7).2 7).1.output =
      "No background command found with PID: 7" := by
  have h := ((getLogs_repeatable_exactly_once [(7, ⟨"o", "e", some none⟩)] 7).2
    ⟨"o", "e", some none⟩ rfl).2 none rfl
  refine ⟨h.2.1, ?_⟩
  rw [h.2.2.1]
  decide

/-- Claim C7: for every shell tool call whose arguments unmarshal
successfully, RunShell returns an ok result even when execution fails —
pipe-setup failure, spawn failure and non-zero exit are each encoded as
descriptive text inside an ok result — and only malformed call arguments
produce a hard error with no result. -/
theorem runShell_error_contract :
    (∀ (env : ExecEnv) (st : ShellState),
      runShell none env st = Except.error "invalid arguments") ∧
    (∀ (args : RunShellArgs) (env : ExecEnv) (st : ShellState),
      ∃ p, runShell (some args) env st = Except.ok p) ∧
    (∀ (args : RunShellArgs) (env : ExecEnv) (st : ShellState) (e : String),
      env.stdoutPipeErr = some e →
      runShell (some args) env st = Except.ok (⟨"Error creating stdout pipe: " ++ e⟩, st)) ∧
    (∀ (args : RunShellArgs) (env : ExecEnv) (st : ShellState) (e : String),
      env.stdoutPipeErr = none → env.stderrPipeErr = some e →
      runShell (some args) env st = Except.ok (⟨"Error creating stderr pipe: " ++ e⟩, st)) ∧
    (∀ (args : RunShellArgs) (env : ExecEnv) (st : ShellState) (e : String),
      env.stdoutPipeErr = none → env.stderrPipeErr = none → env.startErr = some e →
      runShell (some args) env st = Except.ok (⟨"Error starting command: " ++ e⟩, st)) ∧
    (∀ (args : RunShellArgs) (env : ExecEnv) (st : ShellState) (e : String),
      env.stdoutPipeErr = none → env.stderrPipeErr = none → env.startErr = none →
      args.background = false → finishedWithinTimeout env.exitSeconds = true →
      env.exitErr = some e →
      runShell (some args) env st =
        Except.ok (⟨"Error executing command: " ++ e ++ "\nOutput: " ++
          (env.stdoutAcc ++ env.stderrAcc)⟩, st)) := by
  refine ⟨fun env st => rfl, ?_, ?_, ?_, ?_, ?_⟩
  · intro args env st
    unfold runShell
    cases h1 : env.stdoutPipeErr with
    | some e => exact ⟨_, rfl⟩
    | none =>
      cases h2 : env.stderrPipeErr with
      | some e => exact ⟨_, rfl⟩
      | none =>
        cases h3 : env.startErr with
        | some e => exact ⟨_, rfl⟩
        | none =>
          by_cases hb : args.background
          · simp only [hb, if_true]
            exact ⟨_, rfl⟩
          · simp only [hb, if_false]
            by_cases hf : finishedWithinTimeout env.exitSeconds
            · simp only [hf, if_true]
              cases env.exitErr with
              | some e => exact ⟨_, rfl⟩
              | none => exact ⟨_, rfl⟩
            · simp only [hf, if_false]
              exact ⟨_, rfl⟩
  · intro args env st e h1
    simp [runShell, h1]
  · intro args env st e h1 h2
    simp [runShell, h1, h2]
  · intro args env st e h1 h2 h3
    simp [runShell, h1, h2, h3]
  · intro args env st e h1 h2 h3 hb hf he
    simp [runShell, h1, h2, h3, hb, hf, he]

/-- Witness for C7 at a concrete failing pipe setup: the call still returns
an ok result carrying the error text. -/
theorem runShell_error_contract_witness :
    runShell (some ⟨"ls", ".", false⟩)
        ⟨some "broken", none, none, 7, none, none, "", "", none⟩ ⟨[], []⟩ =
      Except.ok (⟨"Error creating stdout pipe: broken"⟩, ⟨[], []⟩) := by
  exact runShell_error_contract.2.2.1 ⟨"ls", ".", false⟩
    ⟨some "broken", none, none, 7, none, none, "", "", none⟩ ⟨[], []⟩ "broken" rfl

/-- Counterexample to claim C3 as stated: on the backgrounding path the
returned result does not carry the output accumulated so far. Here "hello"
has accumulated on stdout at return time, yet the returned output is only
the fixed pid message and does not contain it; the accumulated text is only
stored in the background table for get_logs. -/
theorem runShell_background_output_counterexample :
    runShell (some ⟨"npm start", ".", true⟩)
        ⟨none, none, none, 7, none, none, "hello", "", none⟩ ⟨[], []⟩ =
      Except.ok (⟨bgResultMessage 7⟩, ⟨[], [(7, ⟨"hello", "", none⟩)]⟩) ∧
    hasSub "hello".toList (bgResultMessage 7).toList = false := by
  constructor
  · rfl
  · decide

/-- Claim C3 (amended): for every shell tool call that starts a process, if
background mode was requested explicitly or the process has not finished
within the quick-completion timeout of 10 seconds, the command is registered
in the background-command table keyed by its pid (the entry carrying the
output accumulated so far) and the call returns immediately with a message
naming the pid and directing the caller to get_logs — the accumulated
output itself is not part of the returned text; otherwise the call returns
synchronously with the combined stdout-then-stderr output and no pid. -/
theorem runShell_backgrounding :
    quickCommandTimeout = 10 ∧
    ∀ (args : RunShellArgs) (env : ExecEnv) (st : ShellState),
      env.stdoutPipeErr = none → env.stderrPipeErr = none → env.startErr = none →
      ((args.background = true ∨ finishedWithinTimeout env.exitSeconds = false) →
        runShell (some args) env st =
          Except.ok (⟨bgResultMessage env.pid⟩,
            ⟨st.processes,
              insertBg st.backgroundCommands env.pid ⟨env.stdoutAcc, env.stderrAcc, env.doneAtReg⟩⟩) ∧
        lookupBg (insertBg st.backgroundCommands env.pid
            ⟨env.stdoutAcc, env.stderrAcc, env.doneAtReg⟩) env.pid =
          some ⟨env.stdoutAcc, env.stderrAcc, env.doneAtReg⟩) ∧
      (args.background = false → finishedWithinTimeout env.exitSeconds = true →
        (env.exitErr = none →
          runShell (some args) env st =
            Except.ok (⟨"Output: " ++ (env.stdoutAcc ++ env.stderrAcc)⟩, st)) ∧
        (∀ e, env.exitErr = some e →
          runShell (some args) env st =
            Except.ok (⟨"Error executing command: " ++ e ++ "\nOutput: " ++
              (env.stdoutAcc ++ env.stderrAcc)⟩, st))) := by
  refine ⟨rfl, ?_⟩
  intro args env st h1 h2 h3
  constructor
  · intro hbg
    constructor
    · cases hbg with
      | inl hb => simp [runShell, h1, h2, h3, hb]
      | inr hf =>
        by_cases hb : args.background
        · simp [runShell, h1, h2, h3, hb]
        · simp [runShell, h1, h2, h3, hb, hf]
    · exact lookupBg_insert _ _ _
  · intro hb hf
    constructor
    · intro he
      simp [runShell, h1, h2, h3, hb, hf, he]
    · intro e he
      simp [runShell, h1, h2, h3, hb, hf, he]

/-- Witness for C3 (amended) at the spec scenario: a command finishing after
2 seconds with no background flag returns the combined output synchronously,
and one requesting background mode returns the pid message with the entry
registered. -/
theorem runShell_backgrounding_witness :
    runShell (some ⟨"echo hi", ".", false⟩)
        ⟨none, none, none, 7, some 2, none, "hi\n", "", none⟩ ⟨[], []⟩ =
      Except.ok (⟨"Output: " ++ ("hi\n" ++ "")⟩, ⟨[], []⟩) ∧
    runShell (some ⟨"sleep 5", ".", true⟩)
        ⟨none, none, none, 9, none, none, "", "", none⟩ ⟨[], []⟩ =
      Except.ok (⟨bgResultMessage 9⟩, ⟨[], insertBg [] 9 ⟨"", "", none⟩⟩) := by
  constructor
  · exact (((runShell_backgrounding.2 ⟨"echo hi", ".", false⟩
      ⟨none, none, none, 7, some 2, none, "hi\n", "", none⟩ ⟨[], []⟩ rfl rfl rfl).2
        rfl (by decide)).1 rfl)
  · exact ((runShell_backgrounding.2 ⟨"sleep 5", ".", true⟩
      ⟨none, none, none, 9, none, none, "", "", none⟩ ⟨[], []⟩ rfl rfl rfl).1
        (Or.inl rfl)).1

/-- Claim C6: Stop signals the process group of every entry of the
live-process registry and clears the registry, and leaves the background
table untouched — but a command moved to the background does NOT have its
process signaled: when the RunShell handler returned, its deferred cleanup
already removed the pid from the live-process registry, so the Stop that
follows a backgrounding call issues no signal for that process even though
its background-table entry is still present. The concrete run below
demonstrates the divergence from the claim. -/
theorem stop_misses_backgrounded_process :
    (∀ st : ShellState, stopSignals st = (st.processes, ⟨[], st.backgroundCommands⟩)) ∧
    runShell (some ⟨"docker-compose up", ".", true⟩)
        ⟨none, none, none, 7, none, none, "", "", none⟩ ⟨[], []⟩ =
      Except.ok (⟨bgResultMessage 7⟩, ⟨[], [(7, ⟨"", "", none⟩)]⟩) ∧
    lookupBg [(7, (⟨"", "", none⟩ : BackgroundCommand))] 7 = some ⟨"", "", none⟩ ∧
    (stopSignals ⟨[], [(7, ⟨"", "", none⟩)]⟩).1 = [] ∧
    7 ∉ (stopSignals (⟨[], [(7, ⟨"", "", none⟩)]⟩ : ShellState)).1 := by
  refine ⟨fun st => rfl, rfl, rfl, rfl, ?_⟩
  decide

theorem collectValid_eq_filter_take (mc : Nat) :
    ∀ (l : List String) (n : Nat), n < mc →
      collectValid mc l n = (l.filter (fun s => s != "")).take (mc - n) := by
  intro l
  induction l with
  | nil => intro n _; simp [collectValid]
  | cons s rest ih =>
    intro n hn
    by_cases hs : s = ""
    · simp [collectValid, hs, ih n hn]
    · have hne : (s != "") = true := by simp [hs]
      by_cases hm : mc ≤ n + 1
      · have hone : mc - n = 1 := by omega
        simp [collectValid, hs, hm, List.filter_cons, hne, hone]
      · have h2 : n + 1 < mc := by omega
        have hsum : mc - n = (mc - (n + 1)) + 1 := by omega
        simp [collectValid, hs, hm, List.filter_cons, hne, hsum, ih (n + 1) h2]

/-- Claim C9: for every model reply and configured maximum of at least one,
parseSuggestions extracts the substring between the first opening bracket
and the last closing bracket, parses it as a JSON string array, drops empty
entries and truncates to the maximum; a follow-up-suggestions event tagged
with the originating agent name is emitted if and only if at least one
suggestion survives, and nothing is emitted otherwise, including on any
parse failure. -/
theorem parseSuggestions_contract :
    ∀ (response : String) (maxCount : Nat) (agentName : String),
      1 ≤ maxCount →
      (∀ l, jsonUnmarshalStringList (extractClean response) = some l →
        parseSuggestions response maxCount = (l.filter (fun s => s != "")).take maxCount) ∧
      (jsonUnmarshalStringList (extractClean response) = none →
        parseSuggestions response maxCount = [] ∧
        emitSuggestions response maxCount agentName = none) ∧
      (parseSuggestions response maxCount).length ≤ maxCount ∧
      (∀ s ∈ parseSuggestions response maxCount, s ≠ "") ∧
      (parseSuggestions response maxCount = [] →
        emitSuggestions response maxCount agentName = none) ∧
      (parseSuggestions response maxCount ≠ [] →
        emitSuggestions response maxCount agentName =
          some (Event.followUpSuggestions (parseSuggestions response maxCount) agentName)) := by
  intro response maxCount agentName hmc
  have hmain : ∀ l, jsonUnmarshalStringList (extractClean response) = some l →
      parseSuggestions response maxCount = (l.filter (fun s => s != "")).take maxCount := by
    intro l hl
    have := collectValid_eq_filter_take maxCount l 0 (by omega)
    simpa [parseSuggestions, hl] using this
  refine ⟨hmain, ?_, ?_, ?_, ?_, ?_⟩
  · intro hn
    have hp : parseSuggestions response maxCount = [] := by
      simp [parseSuggestions, hn]
    exact ⟨hp, by simp [emitSuggestions, hp]⟩
  · cases hj : jsonUnmarshalStringList (extractClean response) with
    | none => simp [parseSuggestions, hj]
    | some l =>
      rw [hmain l hj]
      exact le_trans (List.length_take_le _ _) (le_refl _)
  · intro s hs
    cases hj : jsonUnmarshalStringList (extractClean response) with
    | none => simp [parseSuggestions, hj] at hs
    | some l =>
      rw [hmain l hj] at hs
      have hmem := List.take_subset _ _ hs
      have := (List.mem_filter.mp hmem).2
      simpa using this
  · intro hp
    simp [emitSuggestions, hp]
  · intro hp
    have hlen : 0 < (parseSuggestions response maxCount).length := List.length_pos.mpr hp
    simp only [emitSuggestions]
    rw [if_pos hlen]

/-- Witness for C9 at the spec scenario: a reply wrapping a four-element
JSON array in prose and markdown yields the first three suggestions,
emitted as a follow-up-suggestions event tagged with the agent name. -/
theorem parseSuggestions_contract_witness :
    emitSuggestions suggestionsTestReply 3 "root" =
      some (Event.followUpSuggestions ["a", "b", "c"] "root") := by
  have h := (parseSuggestions_contract suggestionsTestReply 3 "root" (by decide)).2.2.2.2.2
    (by decide)
  have hp : parseSuggestions suggestionsTestReply 3 = ["a", "b", "c"] := by decide
  rw [hp] at h
  exact h

/-- Claim C10: for every successfully extracted artifact with non-nil
session data, importSession stores a session whose id is the freshly
generated uuid and whose creation time is the import time — never the
original id or creation time when those differ from the fresh values —
while title and items are taken from the artifact unchanged; an artifact
whose session data is nil is rejected as a bad request and nothing is
stored. -/
theorem importSession_fresh_identity :
    ∀ (ref version exportedAt freshID : String) (s : Session) (now : Nat),
      ref ≠ "" →
      importSession ref (Except.ok ⟨version, exportedAt, some s⟩) freshID now =
        Except.ok ({ s with id := freshID, createdAt := now },
          ⟨freshID, s.title, "session imported successfully"⟩) ∧
      (∀ stored resp,
        importSession ref (Except.ok ⟨version, exportedAt, some s⟩) freshID now =
          Except.ok (stored, resp) →
        stored.id = freshID ∧ stored.createdAt = now ∧
        stored.title = s.title ∧ stored.items = s.items ∧
        (freshID ≠ s.id → stored.id ≠ s.id) ∧
        (now ≠ s.createdAt → stored.createdAt ≠ s.createdAt)) ∧
      importSession ref (Except.ok ⟨version, exportedAt, none⟩) freshID now =
        Except.error (HTTPStatus.badRequest, "invalid session data in artifact") := by
  intro ref version exportedAt freshID s now href
  have hok : importSession ref (Except.ok ⟨version, exportedAt, some s⟩) freshID now =
      Except.ok ({ s with id := freshID, createdAt := now },
        ⟨freshID, s.title, "session imported successfully"⟩) := by
    simp [importSession, href]
  refine ⟨hok, ?_, by simp [importSession, href]⟩
  intro stored resp h
  rw [hok] at h
  have hpair := Except.ok.inj h
  have hs : stored = { s with id := freshID, createdAt := now } :=
    (congrArg Prod.fst hpair).symm
  subst hs
  refine ⟨rfl, rfl, rfl, rfl, ?_, ?_⟩
  · intro hne
    simpa using hne
  · intro hne
    simpa using hne

/-- Witness for C10 at a concrete artifact: the stored session carries the
fresh id and import time while title and items are unchanged, and a nil
session is rejected. -/
theorem importSession_fresh_identity_witness :
    importSession "myref" (Except.ok ⟨"1", "2026-01-01", some importTestSession⟩) "new-id" 99 =
      Except.ok (⟨"new-id", 99, "My title", [Item.msg "root" ⟨Role.user, "hello", [], "", false⟩]⟩,
        ⟨"new-id", "My title", "session imported successfully"⟩) ∧
    importSession "myref" (Except.ok ⟨"1", "2026-01-01", none⟩) "new-id" 99 =
      Except.error (HTTPStatus.badRequest, "invalid session data in artifact") := by
  have h := importSession_fresh_identity "myref" "1" "2026-01-01" "new-id" importTestSession 99
    (by decide)
  exact ⟨h.1, h.2.2⟩

theorem splitAtLastSummary_cons (i : Item) (rest : List Item) :
    splitAtLastSummary (i :: rest) =
      match splitAtLastSummary rest, i with
      | some p, _ => some p
      | none, Item.summary t => some (t, rest)
      | none, Item.msg _ _ => none := rfl

theorem splitAtLastSummary_none_no_marker :
    ∀ {items : List Item}, splitAtLastSummary items = none → ∀ i ∈ items, isSummary i = false := by
  intro items
  induction items with
  | nil => intro _ i hi; cases hi
  | cons x rest ih =>
    intro h i hi
    rw [splitAtLastSummary_cons] at h
    cases hr : splitAtLastSummary rest with
    | some p => rw [hr] at h; cases h
    | none =>
      rw [hr] at h
      cases x with
      | msg o m =>
        cases hi with
        | head => rfl
        | tail _ hmem => exact ih hr i hmem
      | summary t => cases h

theorem splitAtLastSummary_some_decomp :
    ∀ {items : List Item} {t : String} {after : List Item},
      splitAtLastSummary items = some (t, after) →
      (∃ pre, items = pre ++ Item.summary t :: after) ∧
        (∀ i ∈ after, isSummary i = false) := by
  intro items
  induction items with
  | nil => intro t after h; cases h
  | cons x rest ih =>
    intro t after h
    rw [splitAtLastSummary_cons] at h
    cases hr : splitAtLastSummary rest with
    | some p =>
      rw [hr] at h
      cases h
      obtain ⟨⟨pre, hpre⟩, hafter⟩ := ih hr
      exact ⟨⟨x :: pre, by rw [hpre]; rfl⟩, hafter⟩
    | none =>
      rw [hr] at h
      cases x with
      | msg o m => cases h
      | summary t2 =>
        cases h
        exact ⟨⟨[], rfl⟩, splitAtLastSummary_none_no_marker hr⟩

theorem walkedItems_subset :
    ∀ {items : List Item} (i : Item), i ∈ walkedItems items → i ∈ items := by
  intro items i hi
  cases h : splitAtLastSummary items with
  | none =>
    rw [walkedItems, h] at hi
    exact hi
  | some p =>
    rw [walkedItems, h] at hi
    obtain ⟨⟨pre, hpre⟩, -⟩ := splitAtLastSummary_some_decomp h
    rw [hpre]
    exact List.mem_append_right _ (List.mem_cons_of_mem _ hi)

/-- Claim C4: for every session containing a summary marker and every
agent, the view excludes every item stored before the most recent marker
and replaces them with a single "Session Summary: ..." system message,
walking only the items stored after that marker; when no marker exists the
full history is walked. -/
theorem getMessages_summary_compaction :
    ∀ (a : Agent) (date : String) (items : List Item),
      (∀ t after, splitAtLastSummary items = some (t, after) →
        (∃ pre, items = pre ++ Item.summary t :: after) ∧
        (∀ i ∈ after, isSummary i = false) ∧
        walkedItems items = after ∧
        getMessages a date items =
          markLast (invariantZone a) ++ markLast (contextZone a date) ++
            sysMsg ("Session Summary: " ++ t) :: after.filterMap (convertItem a.name)) ∧
      (splitAtLastSummary items = none →
        walkedItems items = items ∧
        getMessages a date items =
          markLast (invariantZone a) ++ markLast (contextZone a date) ++
            items.filterMap (convertItem a.name)) := by
  intro a date items
  constructor
  · intro t after h
    obtain ⟨hpre, hafter⟩ := splitAtLastSummary_some_decomp h
    refine ⟨hpre, hafter, by rw [walkedItems, h], ?_⟩
    simp [getMessages, summaryZone, walkedItems, h]
  · intro h
    refine ⟨by rw [walkedItems, h], ?_⟩
    simp [getMessages, summaryZone, walkedItems, h]

/-- Witness for C4 at the session of TestGetMessagesWithSummary: two items
before the marker are excluded, the summary system message appears once, and
exactly the two items after the marker are walked. -/
theorem getMessages_summary_compaction_witness :
    getMessages ⟨"root", "instructions", [], false⟩ "d"
        [Item.msg "root" ⟨Role.user, "first message", [], "", false⟩,
         Item.msg "root" ⟨Role.assistant, "first response", [], "", false⟩,
         Item.summary "This is a summary of the conversation so far",
         Item.msg "root" ⟨Role.user, "message after summary", [], "", false⟩,
         Item.msg "root" ⟨Role.assistant, "response after summary", [], "", false⟩] =
      [⟨Role.system, "instructions", [], "", true⟩,
       ⟨Role.system, "Session Summary: This is a summary of the conversation so far", [], "", false⟩,
       ⟨Role.user, "message after summary", [], "", false⟩,
       ⟨Role.assistant, "response after summary", [], "", false⟩] := by
  have h := ((getMessages_summary_compaction ⟨"root", "instructions", [], false⟩ "d"
    [Item.msg "root" ⟨Role.user, "first message", [], "", false⟩,
     Item.msg "root" ⟨Role.assistant, "first response", [], "", false⟩,
     Item.summary "This is a summary of the conversation so far",
     Item.msg "root" ⟨Role.user, "message after summary", [], "", false⟩,
     Item.msg "root" ⟨Role.assistant, "response after summary", [], "", false⟩]).1
    "This is a summary of the conversation so far"
    [Item.msg "root" ⟨Role.user, "message after summary", [], "", false⟩,
     Item.msg "root" ⟨Role.assistant, "response after summary", [], "", false⟩] rfl).2.2.2
  rw [h]
  decide

/-- Claim C1: every conversation item authored by a different agent appears
in the agent's view rewritten to a role=user narrative with the structured
tool-call and tool-call-id fields stripped: foreign assistant text becomes a
"For context: [name] said: ..." line, each foreign tool call becomes a
"[name] called tool ... with parameters: ..." line, a foreign tool result
becomes "For context: Tool returned result: ..."; a foreign tool-result
item with empty content is dropped entirely, and a foreign assistant item
carrying only tool calls still yields a narrative line. -/
theorem getMessages_foreign_narrative :
    ∀ (a : Agent) (date : String) (items : List Item) (owner : String) (m : Message),
      owner ≠ a.name →
      getMessages a date items =
        markLast (invariantZone a) ++ markLast (contextZone a date) ++ summaryZone items ++
          (walkedItems items).filterMap (convertItem a.name) ∧
      (∀ m2, convertItem a.name (Item.msg owner m) = some m2 →
        m2.role = Role.user ∧ m2.toolCalls = [] ∧ m2.toolCallID = "") ∧
      (m.role = Role.assistant → m.content ≠ "" →
        convertItem a.name (Item.msg owner m) =
          some { role := Role.user,
                 content := joinLines (("For context: [" ++ owner ++ "] said: " ++ m.content) ::
                   m.toolCalls.map (fun tc =>
                     "[" ++ owner ++ "] called tool `" ++ tc.function.name ++
                       "` with parameters: " ++ tc.function.arguments)) }) ∧
      (m.role = Role.assistant → m.content = "" → m.toolCalls ≠ [] →
        convertItem a.name (Item.msg owner m) =
          some { role := Role.user,
                 content := joinLines (m.toolCalls.map (fun tc =>
                   "[" ++ owner ++ "] called tool `" ++ tc.function.name ++
                     "` with parameters: " ++ tc.function.arguments)) }) ∧
      (m.role = Role.tool → m.content = "" →
        convertItem a.name (Item.msg owner m) = none) ∧
      (m.role = Role.tool → m.content ≠ "" →
        convertItem a.name (Item.msg owner m) =
          some { role := Role.user,
                 content := "For context: Tool returned result: " ++ m.content }) := by
  intro a date items owner m howner
  refine ⟨rfl, ?_, ?_, ?_, ?_, ?_⟩
  · intro m2 h
    rw [convertItem, if_neg howner] at h
    unfold convertForeign at h
    cases hrole : m.role with
    | assistant =>
      rw [hrole] at h
      cases hn : narrativeLines owner m with
      | nil => rw [hn] at h; cases h
      | cons l ls =>
        rw [hn] at h
        cases h
        exact ⟨rfl, rfl, rfl⟩
    | tool =>
      rw [hrole] at h
      by_cases hc : m.content = ""
      · rw [if_pos hc] at h; cases h
      · rw [if_neg hc] at h
        cases h
        exact ⟨rfl, rfl, rfl⟩
    | system =>
      rw [hrole] at h
      cases h
      exact ⟨rfl, rfl, rfl⟩
    | user =>
      rw [hrole] at h
      cases h
      exact ⟨rfl, rfl, rfl⟩
  · intro hrole hc
    rw [convertItem, if_neg howner]
    unfold convertForeign
    rw [hrole]
    have hn : narrativeLines owner m =
        ("For context: [" ++ owner ++ "] said: " ++ m.content) ::
          m.toolCalls.map (fun tc =>
            "[" ++ owner ++ "] called tool `" ++ tc.function.name ++
              "` with parameters: " ++ tc.function.arguments) := by
      rw [narrativeLines, if_neg hc]
      rfl
    rw [hn]
  · intro hrole hc hcalls
    rw [convertItem, if_neg howner]
    unfold convertForeign
    rw [hrole]
    have hn : narrativeLines owner m =
        m.toolCalls.map (fun tc =>
          "[" ++ owner ++ "] called tool `" ++ tc.function.name ++
            "` with parameters: " ++ tc.function.arguments) := by
      rw [narrativeLines, if_pos hc]
      rfl
    rw [hn]
    cases hcs : m.toolCalls with
    | nil => exact absurd hcs hcalls
    | cons tc rest => rfl
  · intro hrole hc
    rw [convertItem, if_neg howner]
    unfold convertForeign
    rw [hrole, if_pos hc]
  · intro hrole hc
    rw [convertItem, if_neg howner]
    unfold convertForeign
    rw [hrole, if_neg hc]

/-- Witness for C1 at the foreign assistant message of
TestGetMessages_OtherAgentToolCallsConvertedToNarrative: text plus one tool
call become a single role=user narrative with no structured fields. -/
theorem getMessages_foreign_narrative_witness :
    convertItem "current-agent"
        (Item.msg "other-agent"
          ⟨Role.assistant, "Let me search for that",
            [⟨"call-123", "function", ⟨"web_search", "query Go programming"⟩⟩], "", false⟩) =
      some ⟨Role.user,
        "For context: [other-agent] said: Let me search for that\n[other-agent] called tool `web_search` with parameters: query Go programming",
        [], "", false⟩ := by
  have h := (getMessages_foreign_narrative ⟨"current-agent", "i", [], false⟩ "d" []
    "other-agent"
    ⟨Role.assistant, "Let me search for that",
      [⟨"call-123", "function", ⟨"web_search", "query Go programming"⟩⟩], "", false⟩
    (by decide)).2.2.1 rfl (by decide)
  rw [h]
  decide

theorem trimFrom_spec (ms : List Message) :
    ∀ s, ∃ t, trimFrom ms s = ms.drop t ∧ t ≤ s ∧
      (t = 0 ∨ orphanFree (ms.drop t) = true) := by
  intro s
  induction s with
  | zero => exact ⟨0, by simp [trimFrom], Nat.le_refl 0, Or.inl rfl⟩
  | succ s ih =>
    by_cases h : orphanFree (ms.drop (s + 1)) = true
    · exact ⟨s + 1, by simp [trimFrom, h], Nat.le_refl _, Or.inr h⟩
    · obtain ⟨t, h1, h2, h3⟩ := ih
      refine ⟨t, ?_, by omega, h3⟩
      rw [trimFrom, if_neg ?_]
      · exact h1
      · simpa using h

/-- Claim C5: for every list of conversation messages and every maxItems,
trimMessages returns a suffix of the most recent messages of length at
least min(maxItems, length); when the window of exactly the most recent
maxItems messages orphans no tool-role message it is returned as is, and
when the input is tool-consistent the result never contains a tool-role
message whose owning assistant message is absent — the window having been
extended leftward where needed, so maxItems is a floor rather than a hard
ceiling. -/
theorem trimMessages_tool_consistency :
    ∀ (messages : List Message) (k : Nat),
      (∃ t, trimMessages messages k = messages.drop t) ∧
      min k messages.length ≤ (trimMessages messages k).length ∧
      (orphanFree (messages.drop (messages.length - k)) = true →
        trimMessages messages k = messages.drop (messages.length - k)) ∧
      (orphanFree messages = true → orphanFree (trimMessages messages k) = true) := by
  intro messages k
  by_cases hlen : messages.length ≤ k
  · have htm : trimMessages messages k = messages := by
      rw [trimMessages, if_pos hlen]
    have hz : messages.length - k = 0 := by omega
    refine ⟨⟨0, by rw [htm]; rfl⟩, ?_, ?_, ?_⟩
    · rw [htm]
      omega
    · intro _
      rw [htm, hz]
      rfl
    · intro h
      rw [htm]
      exact h
  · have htm : trimMessages messages k = trimFrom messages (messages.length - k) := by
      rw [trimMessages, if_neg hlen]
    obtain ⟨t, h1, h2, h3⟩ := trimFrom_spec messages (messages.length - k)
    refine ⟨⟨t, by rw [htm, h1]⟩, ?_, ?_, ?_⟩
    · rw [htm, h1, List.length_drop]
      omega
    · intro hor
      cases hd : messages.length - k with
      | zero => omega
      | succ s =>
        rw [htm, hd]
        rw [hd] at hor
        rw [trimFrom, if_pos (by simpa using hor)]
    · intro hall
      rw [htm, h1]
      cases h3 with
      | inl hz => rw [hz]; exact hall
      | inr ho => exact ho

/-- Witness for C5 at the fixture of TestTrimMessagesWithToolCalls (no
expansion needed) and at a window that would orphan a tool result
(expansion from 2 to 3 messages, demonstrating the floor). -/
theorem trimMessages_tool_consistency_witness :
    orphanFree trimTestMessages = true ∧
    orphanFree (trimMessages trimTestMessages 3) = true ∧
    trimMessages trimTestMessages 3 = trimTestMessages.drop 3 ∧
    orphanFree (trimMessages
      [⟨Role.assistant, "a", [⟨"t1", "", ⟨"", ""⟩⟩], "", false⟩,
       ⟨Role.tool, "r", [], "t1", false⟩,
       ⟨Role.user, "u", [], "", false⟩] 2) = true ∧
    (trimMessages
      [⟨Role.assistant, "a", [⟨"t1", "", ⟨"", ""⟩⟩], "", false⟩,
       ⟨Role.tool, "r", [], "t1", false⟩,
       ⟨Role.user, "u", [], "", false⟩] 2).length = 3 := by
  refine ⟨by decide, ?_, ?_, ?_, by decide⟩
  · exact (trimMessages_tool_consistency trimTestMessages 3).2.2.2 (by decide)
  · exact (trimMessages_tool_consistency trimTestMessages 3).2.2.1 (by decide)
  · exact (trimMessages_tool_consistency
      [⟨Role.assistant, "a", [⟨"t1", "", ⟨"", ""⟩⟩], "", false⟩,
       ⟨Role.tool, "r", [], "t1", false⟩,
       ⟨Role.user, "u", [], "", false⟩] 2).2.2.2 (by decide)

theorem markLast_filter_cons :
    ∀ (l : List Message) (x : Message), (∀ m ∈ x :: l, m.cacheControl = false) →
      (markLast (x :: l)).filter (fun m => m.cacheControl) =
        [{ (x :: l).getLastD x with cacheControl := true }] := by
  intro l
  induction l with
  | nil =>
    intro x _
    simp [markLast, List.getLastD]
  | cons y rest ih =>
    intro x h
    have hx : x.cacheControl = false := h x (List.mem_cons_self x _)
    have hrest : ∀ m ∈ y :: rest, m.cacheControl = false := by
      intro m hm
      exact h m (List.mem_cons_of_mem x hm)
    have hstep : markLast (x :: y :: rest) = x :: markLast (y :: rest) := rfl
    rw [hstep, List.filter_cons, if_neg (by simp [hx])]
    rw [ih y hrest]
    simp only [List.getLastD_cons]

theorem map_sysMsg_getLastD :
    ∀ (ts : List String) (x : String),
      (ts.map sysMsg).getLastD (sysMsg x) = sysMsg (ts.getLastD x) := by
  intro ts
  induction ts with
  | nil => intro x; rfl
  | cons y r ih =>
    intro x
    rw [List.map_cons, List.getLastD_cons, List.getLastD_cons, ih y]

theorem invariantZone_unflagged (a : Agent) :
    ∀ m ∈ invariantZone a, m.cacheControl = false := by
  intro m hm
  rcases List.mem_cons.mp hm with h | h
  · rw [h]; rfl
  · obtain ⟨s, -, rfl⟩ := List.mem_map.mp h
    rfl

theorem convertItem_flag (name owner : String) (m m2 : Message)
    (hm : m.cacheControl = false)
    (h : convertItem name (Item.msg owner m) = some m2) : m2.cacheControl = false := by
  rw [convertItem] at h
  by_cases ho : owner = name
  · rw [if_pos ho] at h
    cases h
    exact hm
  · rw [if_neg ho] at h
    unfold convertForeign at h
    cases hrole : m.role with
    | assistant =>
      rw [hrole] at h
      cases hn : narrativeLines owner m with
      | nil => rw [hn] at h; cases h
      | cons l ls => rw [hn] at h; cases h; rfl
    | tool =>
      rw [hrole] at h
      by_cases hc : m.content = ""
      · rw [if_pos hc] at h; cases h
      · rw [if_neg hc] at h; cases h; rfl
    | system => rw [hrole] at h; cases h; exact hm
    | user => rw [hrole] at h; cases h; exact hm

theorem conversation_filter_nil (a : Agent) (items : List Item)
    (h : ∀ owner m, Item.msg owner m ∈ items → m.cacheControl = false) :
    ((walkedItems items).filterMap (convertItem a.name)).filter
      (fun m => m.cacheControl) = [] := by
  apply List.filter_eq_nil_iff.mpr
  intro m2 hm2
  obtain ⟨i, hi, hconv⟩ := List.mem_filterMap.mp hm2
  have hi2 := walkedItems_subset i hi
  cases i with
  | summary t => simp [convertItem] at hconv
  | msg owner m =>
    have hflag := h owner m hi2
    have := convertItem_flag a.name owner m m2 hflag hconv
    simp [this]

/-- Counterexample to claim C8 as stated: at the input of
TestGetMessages_CacheControlWithSummary — all three zones present — the
produced view carries exactly two checkpoint flags, on the last invariant
message and on the date message; the "Session Summary" message is present
but NOT flagged, matching the test's assertion of two checkpoints and
contradicting the claim that the summary zone's last message is flagged as
well. -/
theorem getMessages_summary_not_checkpointed :
    ((getMessages c8TestAgent "2026-02-03" [Item.summary "Test summary"]).filter
        (fun m => m.cacheControl)).length = 2 ∧
    ((getMessages c8TestAgent "2026-02-03" [Item.summary "Test summary"]).filter
        (fun m => m.cacheControl)) =
      [⟨Role.system, "Using the Todo Tools", [], "", true⟩,
       ⟨Role.system, "Date: 2026-02-03", [], "", true⟩] ∧
    (⟨Role.system, "Session Summary: Test summary", [], "", false⟩ : Message) ∈
      getMessages c8TestAgent "2026-02-03" [Item.summary "Test summary"] ∧
    (⟨Role.system, "Session Summary: Test summary", [], "", true⟩ : Message) ∉
      getMessages c8TestAgent "2026-02-03" [Item.summary "Test summary"] := by
  decide

/-- Claim C8 (amended): in every view produced from a store whose items
carry no pre-set flag, the cache-checkpoint flags are exactly: one on the
last message of the agent-invariant instructions/toolset zone, and — when
the context-specific zone is present — one on its last message; at most one
checkpoint per zone and at most two in total. The summary zone's message,
when present, is in the view but does not carry the flag. -/
theorem getMessages_checkpoints :
    ∀ (a : Agent) (date : String) (items : List Item),
      (∀ owner m, Item.msg owner m ∈ items → m.cacheControl = false) →
      (getMessages a date items).filter (fun m => m.cacheControl) =
        { role := Role.system, content := a.toolsetInstructions.getLastD a.instructions,
          toolCalls := [], toolCallID := "", cacheControl := true } ::
          (if a.addDate then
            [{ role := Role.system, content := "Date: " ++ date, toolCalls := [],
               toolCallID := "", cacheControl := true }]
          else []) ∧
      (∀ t after, splitAtLastSummary items = some (t, after) →
        sysMsg ("Session Summary: " ++ t) ∈ getMessages a date items ∧
        (sysMsg ("Session Summary: " ++ t)).cacheControl = false) := by
  intro a date items h
  constructor
  · have hinv : (markLast (invariantZone a)).filter (fun m => m.cacheControl) =
        [{ role := Role.system, content := a.toolsetInstructions.getLastD a.instructions,
           toolCalls := [], toolCallID := "", cacheControl := true }] := by
      have hcons : invariantZone a = sysMsg a.instructions :: a.toolsetInstructions.map sysMsg :=
        rfl
      rw [hcons, markLast_filter_cons _ _ (by rw [← hcons]; exact invariantZone_unflagged a)]
      rw [List.getLastD_cons, map_sysMsg_getLastD]
      rfl
    have hctx : (markLast (contextZone a date)).filter (fun m => m.cacheControl) =
        (if a.addDate then
          [{ role := Role.system, content := "Date: " ++ date, toolCalls := [],
             toolCallID := "", cacheControl := true }]
        else []) := by
      rw [contextZone]
      by_cases hd : a.addDate
      · rw [if_pos hd, if_pos hd]
        rfl
      · rw [if_neg hd, if_neg hd]
        rfl
    have hsum : (summaryZone items).filter (fun m => m.cacheControl) = [] := by
      cases hs : splitAtLastSummary items with
      | none => rw [summaryZone, hs]; rfl
      | some p => rw [summaryZone, hs]; rfl
    have hconv := conversation_filter_nil a items h
    rw [getMessages, List.filter_append, List.filter_append, List.filter_append,
      hinv, hctx, hsum, hconv]
    simp
  · intro t after hsplit
    refine ⟨?_, rfl⟩
    have hzone : summaryZone items = [sysMsg ("Session Summary: " ++ t)] := by
      rw [summaryZone, hsplit]
    rw [getMessages, hzone]
    simp

/-- Witness for C8 (amended) at the input of
TestGetMessages_CacheControlWithSummary: exactly the toolset-instruction
message and the date message carry the flag. -/
theorem getMessages_checkpoints_witness :
    (getMessages c8TestAgent "2026-02-03" [Item.summary "Test summary"]).filter
        (fun m => m.cacheControl) =
      [⟨Role.system, "Using the Todo Tools", [], "", true⟩,
       ⟨Role.system, "Date: 2026-02-03", [], "", true⟩] := by
  have h := (getMessages_checkpoints c8TestAgent "2026-02-03" [Item.summary "Test summary"]
    (by intro owner m hm; simp at hm)).1
  rw [h]
  decide

/-- Model validation against TestGetMessages_OtherAgentToolCallsConvertedToNarrative:
the four stored items yield one unchanged user message and three role=user
narratives with the structured fields stripped. -/
theorem model_matches_narrative_test :
    [Item.msg "current-agent" ⟨Role.user, "find info about Go", [], "", false⟩,
     Item.msg "other-agent" ⟨Role.assistant, "Let me search for that",
       [⟨"call-123", "function", ⟨"web_search", "query Go programming"⟩⟩], "", false⟩,
     Item.msg "other-agent" ⟨Role.tool, "Go is a statically typed language", [], "call-123", false⟩,
     Item.msg "other-agent" ⟨Role.assistant, "Here is what I found about Go", [], "", false⟩
    ].filterMap (convertItem "current-agent") =
      [⟨Role.user, "find info about Go", [], "", false⟩,
       ⟨Role.user,
         "For context: [other-agent] said: Let me search for that\n[other-agent] called tool `web_search` with parameters: query Go programming",
         [], "", false⟩,
       ⟨Role.user, "For context: Tool returned result: Go is a statically typed language", [], "", false⟩,
       ⟨Role.user, "For context: [other-agent] said: Here is what I found about Go", [], "", false⟩] := by
  decide

/-- Model validation against TestGetMessages_OtherAgentToolCallOnly: a
foreign assistant item with only a tool call still yields a narrative, and
the foreign tool result with empty content is dropped. -/
theorem model_matches_toolcall_only_test :
    [Item.msg "agent-b" ⟨Role.assistant, "",
       [⟨"call-456", "function", ⟨"read_file", "path tmp test"⟩⟩], "", false⟩,
     Item.msg "agent-b" ⟨Role.tool, "", [], "call-456", false⟩
    ].filterMap (convertItem "agent-a") =
      [⟨Role.user, "[agent-b] called tool `read_file` with parameters: path tmp test",
        [], "", false⟩] := by
  decide

/-- Model validation against TestGetMessages_SameAgentToolCallsUnchanged:
an agent's own items pass through the view unchanged, structured tool calls
and tool-call ids included. -/
theorem model_matches_same_agent_test :
    [Item.msg "my-agent" ⟨Role.user, "do something", [], "", false⟩,
     Item.msg "my-agent" ⟨Role.assistant, "I will use a tool",
       [⟨"own-call-1", "function", ⟨"my_tool", "x 1"⟩⟩], "", false⟩,
     Item.msg "my-agent" ⟨Role.tool, "tool output", [], "own-call-1", false⟩
    ].filterMap (convertItem "my-agent") =
      [⟨Role.user, "do something", [], "", false⟩,
       ⟨Role.assistant, "I will use a tool",
         [⟨"own-call-1", "function", ⟨"my_tool", "x 1"⟩⟩], "", false⟩,
       ⟨Role.tool, "tool output", [], "own-call-1", false⟩] := by
  decide

/-- Model validation against TestGetMessages_Instructions and
TestGetMessages_CacheControl: with no toolset the single instructions
message is flagged; with a toolset the instructions message is unflagged and
the toolset message is flagged. -/
theorem model_matches_cache_control_tests :
    getMessages ⟨"root", "instructions", [], false⟩ "d" [] =
      [⟨Role.system, "instructions", [], "", true⟩] ∧
    getMessages ⟨"root", "instructions", ["Using the Todo Tools"], false⟩ "d" [] =
      [⟨Role.system, "instructions", [], "", false⟩,
       ⟨Role.system, "Using the Todo Tools", [], "", true⟩] := by
  decide

end Cagent
